import Mathlib

/-!
Verification of the WarpX particle-field coupling and time-advance kernel:
a shallow embedding of the rigid-injection particle container
(RigidInjectedParticleContainer), the species physical properties table,
the proton-boron fusion cross section, and the macroscopic field accessor,
together with theorems settling the specified properties.

Machine floating-point values are modelled as real numbers; a possibly-NaN
amrex::Real is modelled by the type AReal below; a function whose C++ body
can call amrex::Abort is modelled with an Except String result, the error
carrying the abort message.
-/

noncomputable section

namespace PhysConst

/-- Modelled from the spec: the simulation-wide physical constants
(speed of light, elementary charge, electron and proton masses, vacuum
permittivity, reduced Planck constant) consumed by the kernel; the header
WarpXConst.H defining them is not part of the analysed sources, so the
CODATA SI values used by the code are stated here directly. -/
def c : ℝ := 299792458

/-- Modelled from the spec: elementary charge in SI units. -/
def q_e : ℝ := 1.602176634e-19

/-- Modelled from the spec: electron mass in SI units. -/
def m_e : ℝ := 9.1093837015e-31

/-- Modelled from the spec: proton mass in SI units. -/
def m_p : ℝ := 1.67262192369e-27

/-- Modelled from the spec: vacuum permittivity in SI units. -/
def ep0 : ℝ := 8.8541878128e-12

/-- Modelled from the spec: reduced Planck constant in SI units. -/
def hbar : ℝ := 1.054571817e-34

end PhysConst

/-- The enumeration of physical species of SpeciesPhysicalProperties.H. -/
inductive PhysicalSpecies
  | unspecified
  | electron
  | positron
  | photon
  | hydrogen
  | helium
  | boron
  | carbon
  | nitrogen
  | oxygen
  | copper
  deriving DecidableEq, Repr

/-- An amrex::Real value that may be a quiet NaN (as returned by
species::get_charge and species::get_mass for an unspecified species). -/
inductive AReal
  | nan
  | fin (val : ℝ)

namespace species

/-- Embedding of species::from_string: the chain of string comparisons of the
source, ending in amrex::Abort (modelled as an Except.error) for a string
outside the accepted set. -/
def from_string (s : String) : Except String PhysicalSpecies :=
  if s = "unspecified" then .ok .unspecified
  else if s = "electron" then .ok .electron
  else if s = "positron" then .ok .positron
  else if s = "photon" then .ok .photon
  else if s = "hydrogen" then .ok .hydrogen
  else if s = "proton" then .ok .hydrogen
  else if s = "helium" then .ok .helium
  else if s = "alpha" then .ok .helium
  else if s = "boron" then .ok .boron
  else if s = "carbon" then .ok .carbon
  else if s = "nitrogen" then .ok .nitrogen
  else if s = "oxygen" then .ok .oxygen
  else if s = "copper" then .ok .copper
  else .error "unknown PhysicalSpecies"

/-- Embedding of species::get_charge: the switch of the source. The C++
default branch (amrex::Abort) is reachable only for an enum value outside the
declared enumerators, which the Lean enumeration cannot represent; the Except
result type records that the C++ body contains an abort call. The
unspecified case returns a quiet NaN, not an abort. -/
def get_charge (ps : PhysicalSpecies) : Except String AReal :=
  match ps with
  | .unspecified => .ok .nan
  | .electron => .ok (.fin (-PhysConst.q_e))
  | .positron => .ok (.fin PhysConst.q_e)
  | .photon => .ok (.fin 0)
  | .hydrogen => .ok (.fin PhysConst.q_e)
  | .helium => .ok (.fin (PhysConst.q_e * 2.0))
  | .boron => .ok (.fin (PhysConst.q_e * 5.0))
  | .carbon => .ok (.fin (PhysConst.q_e * 6.0))
  | .nitrogen => .ok (.fin (PhysConst.q_e * 7.0))
  | .oxygen => .ok (.fin (PhysConst.q_e * 8.0))
  | .copper => .ok (.fin (PhysConst.q_e * 29.0))

/-- Embedding of species::get_mass, with the same conventions as get_charge. -/
def get_mass (ps : PhysicalSpecies) : Except String AReal :=
  match ps with
  | .unspecified => .ok .nan
  | .electron => .ok (.fin PhysConst.m_e)
  | .positron => .ok (.fin PhysConst.m_e)
  | .photon => .ok (.fin 0)
  | .hydrogen => .ok (.fin PhysConst.m_p)
  | .helium => .ok (.fin (PhysConst.m_p * 3.97369))
  | .boron => .ok (.fin (PhysConst.m_p * 10.7319))
  | .carbon => .ok (.fin (PhysConst.m_e * 22032.0))
  | .nitrogen => .ok (.fin (PhysConst.m_e * 25716.9))
  | .oxygen => .ok (.fin (PhysConst.m_p * 15.8834))
  | .copper => .ok (.fin (PhysConst.m_p * 63.0864))

/-- Embedding of species::get_name, with the same conventions as get_charge. -/
def get_name (ps : PhysicalSpecies) : Except String String :=
  match ps with
  | .unspecified => .ok "unspecified"
  | .electron => .ok "electron"
  | .positron => .ok "positron"
  | .photon => .ok "photon"
  | .hydrogen => .ok "hydrogen"
  | .helium => .ok "helium"
  | .boron => .ok "boron"
  | .carbon => .ok "carbon"
  | .nitrogen => .ok "nitrogen"
  | .oxygen => .ok "oxygen"
  | .copper => .ok "copper"

end species

/-- The canonical species names: the printed name of each enumerator of
PhysicalSpecies, in declaration order. -/
def canonicalSpeciesNames : List String :=
  ["unspecified", "electron", "positron", "photon", "hydrogen", "helium",
   "boron", "carbon", "nitrogen", "oxygen", "copper"]

/-- Every string accepted by species::from_string: the canonical names plus
the two aliases proton and alpha. -/
def acceptedSpeciesNames : List String :=
  canonicalSpeciesNames ++ ["proton", "alpha"]

/-- A triple of momentum components (ux, uy, uz), in SI units (gamma times
velocity), as stored in the PIdx::ux, PIdx::uy, PIdx::uz attributes. -/
structure Vec3 where
  x : ℝ
  y : ℝ
  z : ℝ

/-- The electromagnetic field values gathered at one particle position
(Exp, Eyp, Ezp, Bxp, Byp, Bzp). -/
structure EMField where
  Ex : ℝ
  Ey : ℝ
  Ez : ℝ
  Bx : ℝ
  By : ℝ
  Bz : ℝ

/-- The inverse square of the speed of light, as the source's inv_csq. -/
def inv_c2 : ℝ := 1 / (PhysConst.c * PhysConst.c)

namespace ParticlePusherAlgo

/-- Modelled from the spec: the integer identifier of the Boris pusher in the
WarpXAlgorithmSelection header, which is not part of the analysed sources. -/
def Boris : ℕ := 0

/-- Modelled from the spec: the integer identifier of the Vay pusher. -/
def Vay : ℕ := 1

/-- Modelled from the spec: the integer identifier of the Higuera-Cary
pusher. -/
def HigueraCary : ℕ := 2

end ParticlePusherAlgo

/-- Modelled from the spec: UpdateMomentumBoris, the leapfrog rotation-based
Boris scheme (half electric kick, magnetic rotation, half electric kick); the
Pusher/UpdateMomentumBoris.H header is not part of the analysed sources, so
the standard published formula is used. -/
def UpdateMomentumBoris (u : Vec3) (F : EMField) (q m dt : ℝ) : Vec3 :=
  let econst := q * dt / (2 * m)
  let uxm := u.x + econst * F.Ex
  let uym := u.y + econst * F.Ey
  let uzm := u.z + econst * F.Ez
  let inv_gamma := 1 / Real.sqrt (1 + (uxm * uxm + uym * uym + uzm * uzm) * inv_c2)
  let tx := econst * inv_gamma * F.Bx
  let ty := econst * inv_gamma * F.By
  let tz := econst * inv_gamma * F.Bz
  let tsqi := 2 / (1 + tx * tx + ty * ty + tz * tz)
  let sx := tx * tsqi
  let sy := ty * tsqi
  let sz := tz * tsqi
  let uxp := uxm + uym * tz - uzm * ty
  let uyp := uym + uzm * tx - uxm * tz
  let uzp := uzm + uxm * ty - uym * tx
  { x := uxm + uyp * sz - uzp * sy + econst * F.Ex
    y := uym + uzp * sx - uxp * sz + econst * F.Ey
    z := uzm + uxp * sy - uyp * sx + econst * F.Ez }

/-- Modelled from the spec: UpdateMomentumVay, the Vay scheme with improved
behavior for fast ExB drifts; the Pusher/UpdateMomentumVay.H header is not
part of the analysed sources, so the standard published formula is used. -/
def UpdateMomentumVay (u : Vec3) (F : EMField) (q m dt : ℝ) : Vec3 :=
  let econst := q * dt / (2 * m)
  let inv_gamma0 := 1 / Real.sqrt (1 + (u.x * u.x + u.y * u.y + u.z * u.z) * inv_c2)
  let uxpr := u.x + 2 * econst * F.Ex + econst * inv_gamma0 * (u.y * F.Bz - u.z * F.By)
  let uypr := u.y + 2 * econst * F.Ey + econst * inv_gamma0 * (u.z * F.Bx - u.x * F.Bz)
  let uzpr := u.z + 2 * econst * F.Ez + econst * inv_gamma0 * (u.x * F.By - u.y * F.Bx)
  let taux := econst * F.Bx
  let tauy := econst * F.By
  let tauz := econst * F.Bz
  let tausq := taux * taux + tauy * tauy + tauz * tauz
  let ust := (uxpr * taux + uypr * tauy + uzpr * tauz) / PhysConst.c
  let gprsq := 1 + (uxpr * uxpr + uypr * uypr + uzpr * uzpr) * inv_c2
  let sigma := gprsq - tausq
  let gamma_new := Real.sqrt ((sigma + Real.sqrt (sigma * sigma + 4 * (tausq + ust * ust))) / 2)
  let tx := taux / gamma_new
  let ty := tauy / gamma_new
  let tz := tauz / gamma_new
  let sfac := 1 / (1 + tx * tx + ty * ty + tz * tz)
  let udott := uxpr * tx + uypr * ty + uzpr * tz
  { x := sfac * (uxpr + udott * tx + uypr * tz - uzpr * ty)
    y := sfac * (uypr + udott * ty + uzpr * tx - uxpr * tz)
    z := sfac * (uzpr + udott * tz + uxpr * ty - uypr * tx) }

/-- Modelled from the spec: UpdateMomentumHigueraCary, the Higuera-Cary
variant addressing a relativistic-drift inaccuracy of Boris; the
Pusher/UpdateMomentumHigueraCary.H header is not part of the analysed
sources, so the standard published formula is used. -/
def UpdateMomentumHigueraCary (u : Vec3) (F : EMField) (q m dt : ℝ) : Vec3 :=
  let econst := q * dt / (2 * m)
  let umx := u.x + econst * F.Ex
  let umy := u.y + econst * F.Ey
  let umz := u.z + econst * F.Ez
  let gmsq := 1 + (umx * umx + umy * umy + umz * umz) * inv_c2
  let bmx := econst * F.Bx
  let bmy := econst * F.By
  let bmz := econst * F.Bz
  let bsq := bmx * bmx + bmy * bmy + bmz * bmz
  let sigma := gmsq - bsq
  let ust := (umx * bmx + umy * bmy + umz * bmz) / PhysConst.c
  let gamma_new := Real.sqrt ((sigma + Real.sqrt (sigma * sigma + 4 * (bsq + ust * ust))) / 2)
  let tx := bmx / gamma_new
  let ty := bmy / gamma_new
  let tz := bmz / gamma_new
  let sfac := 1 / (1 + tx * tx + ty * ty + tz * tz)
  let udott := umx * tx + umy * ty + umz * tz
  let upx := sfac * (umx + udott * tx + umy * tz - umz * ty)
  let upy := sfac * (umy + udott * ty + umz * tx - umx * tz)
  let upz := sfac * (umz + udott * tz + umx * ty - umy * tx)
  { x := upx + econst * F.Ex + upy * tz - upz * ty
    y := upy + econst * F.Ey + upz * tx - upx * tz
    z := upz + econst * F.Ez + upx * ty - upy * tx }

/-- Modelled from the spec: UpdateMomentumBorisWithRadiationReaction, the
Boris scheme augmented with a radiative-damping force term; the header is not
part of the analysed sources and the spec does not give the damping formula,
so the damping force is abstracted as the function parameter frr, applied
scaled by dt after the Boris update. -/
def UpdateMomentumBorisWithRadiationReaction
    (frr : Vec3 → EMField → Vec3) (u : Vec3) (F : EMField) (q m dt : ℝ) : Vec3 :=
  let ub := UpdateMomentumBoris u F q m dt
  { x := ub.x + dt * (frr ub F).x
    y := ub.y + dt * (frr ub F).y
    z := ub.z + dt * (frr ub F).z }

/-- The per-particle momentum update of RigidInjectedParticleContainer::PushP
(the if/else chain over do_classical_radiation_reaction and
WarpX::particle_pusher_algo, ending in amrex::Abort for an unknown pusher,
modelled as an Except.error). -/
def pushPMomentum (pusher_algo : ℕ) (do_crr : Bool) (frr : Vec3 → EMField → Vec3)
    (u : Vec3) (F : EMField) (q m dt : ℝ) : Except String Vec3 :=
  if do_crr then .ok (UpdateMomentumBorisWithRadiationReaction frr u F q m dt)
  else if pusher_algo = ParticlePusherAlgo.Boris then .ok (UpdateMomentumBoris u F q m dt)
  else if pusher_algo = ParticlePusherAlgo.Vay then .ok (UpdateMomentumVay u F q m dt)
  else if pusher_algo = ParticlePusherAlgo.HigueraCary then
    .ok (UpdateMomentumHigueraCary u F q m dt)
  else .error "Unknown particle pusher"

/-- One particle of the structure-of-arrays tile data: position (x, y, z)
and momentum (ux, uy, uz). -/
structure Particle where
  x : ℝ
  y : ℝ
  z : ℝ
  ux : ℝ
  uy : ℝ
  uz : ℝ

/-- The arguments of the ScaleFields functor constructed inside
RigidInjectedParticleContainer::PushPX: the do_scale flag, dt, the previous
injection-plane position, the average boosted beam velocity and the boost
velocity. -/
structure ScaleFields where
  m_do_scale : Bool
  m_dt : ℝ
  m_z_plane_previous : ℝ
  m_vzbeam_ave_boosted : ℝ
  m_v_boost : ℝ

/-- Modelled from the spec: the action of the ScaleFields functor on the
gathered fields.  Its definition lives in PhysicalParticleContainer, which is
not part of the analysed sources; the spec only states that the correction is
applied when do_scale is set and disabled otherwise, so the scaling factor is
abstracted as the function parameter sfun, applied only when m_do_scale. -/
def applyScaleFields (sfun : ScaleFields → Particle → EMField → EMField)
    (sf : ScaleFields) (p : Particle) (F : EMField) : EMField :=
  if sf.m_do_scale then sfun sf p F else F

/-- Modelled from the spec: the generic PhysicalParticleContainer::PushPX
applied to one particle (the container source is not part of the analysed
sources).  Per the spec it gathers E/B at the particle position (abstracted
as the per-particle field map fields, which also accounts for any external
applied field), lets the ScaleFields functor act on them, advances the
momentum with the configured pusher, and advances the position with the new
momentum consistently with the relativistic velocity u/gamma. -/
def physicalPushPX (pusher_algo : ℕ) (do_crr : Bool) (frr : Vec3 → EMField → Vec3)
    (sfun : ScaleFields → Particle → EMField → EMField)
    (fields : Particle → EMField) (sf : ScaleFields)
    (q m dt : ℝ) (p : Particle) : Except String Particle := do
  let F := applyScaleFields sfun sf p (fields p)
  let u ← pushPMomentum pusher_algo do_crr frr (Vec3.mk p.ux p.uy p.uz) F q m dt
  let gamma_new := Real.sqrt (1 + (u.x * u.x + u.y * u.y + u.z * u.z) * inv_c2)
  pure { x := p.x + dt * u.x / gamma_new
         y := p.y + dt * u.y / gamma_new
         z := p.z + dt * u.z / gamma_new
         ux := u.x
         uy := u.y
         uz := u.z }

/-- The snapshot step of RigidInjectedParticleContainer::PushPX: the
pre-push position and momentum copies (xp_save, ..., uzp_save) are filled
only while the level is still injecting. -/
def pushPXSnapshot (done_injecting_lev : Bool) (p : Particle) : Option Particle :=
  if done_injecting_lev then none else some p

/-- The post-push correction loop of RigidInjectedParticleContainer::PushPX:
a particle whose post-push z is at-or-below the injection plane has its
momentum and x, y restored from the snapshot, and its z set from the saved z
advanced either by dt times the average boosted beam velocity (rigid_advance)
or by dt times the restored particle velocity uz/gamma. -/
def rigidPXCorrection (rigid_advance : Bool) (z_plane_lev vzbeam_ave_boosted dt : ℝ)
    (saved pushed : Particle) : Particle :=
  if pushed.z ≤ z_plane_lev then
    let gi := 1 / Real.sqrt (1 +
      (saved.ux * saved.ux + saved.uy * saved.uy + saved.uz * saved.uz) * inv_c2)
    { x := saved.x
      y := saved.y
      z := if rigid_advance then saved.z + dt * vzbeam_ave_boosted
           else saved.z + dt * saved.uz * gi
      ux := saved.ux
      uy := saved.uy
      uz := saved.uz }
  else pushed

/-- RigidInjectedParticleContainer::PushPX applied to one particle of the
tile: snapshot while injecting, generic push with ScaleFields(do_scale = not
done_injecting_lev, dt, zinject_plane_lev_previous, vzbeam_ave_boosted,
v_boost = beta_boost c), then the conditional restore while injecting. -/
def rigidPushPX (done_injecting_lev rigid_advance : Bool)
    (zinject_plane_lev zinject_plane_lev_previous vzbeam_ave_boosted beta_boost : ℝ)
    (pusher_algo : ℕ) (do_crr : Bool) (frr : Vec3 → EMField → Vec3)
    (sfun : ScaleFields → Particle → EMField → EMField)
    (fields : Particle → EMField)
    (q m dt : ℝ) (p : Particle) : Except String Particle := do
  let snap := pushPXSnapshot done_injecting_lev p
  let do_scale := !done_injecting_lev
  let v_boost := beta_boost * PhysConst.c
  let pushed ← physicalPushPX pusher_algo do_crr frr sfun fields
      (ScaleFields.mk do_scale dt zinject_plane_lev_previous vzbeam_ave_boosted v_boost)
      q m dt p
  match snap with
  | none => pure pushed
  | some saved =>
      pure (rigidPXCorrection rigid_advance zinject_plane_lev vzbeam_ave_boosted dt
              saved pushed)

/-- RigidInjectedParticleContainer::PushP applied to one particle of the
tile: save the momentum, gather the fields (abstracted as the per-particle
field map fields, including external fields), update the momentum with the
configured pusher (charge multiplied by the ionization level when present),
then restore the saved momentum for a particle at-or-below the injection
plane.  The position is never written. -/
def rigidPushP (pusher_algo : ℕ) (do_crr : Bool) (frr : Vec3 → EMField → Vec3)
    (fields : Particle → EMField) (ion_lev : Option ℤ)
    (q m dt zinject_plane : ℝ) (p : Particle) : Except String Particle := do
  let usave := Vec3.mk p.ux p.uy p.uz
  let F := fields p
  let qp := match ion_lev with
            | some l => q * (l : ℝ)
            | none => q
  let u ← pushPMomentum pusher_algo do_crr frr usave F qp m dt
  let p1 : Particle := { p with ux := u.x, uy := u.y, uz := u.z }
  if p.z ≤ zinject_plane then
    pure { p1 with ux := usave.x, uy := usave.y, uz := usave.z }
  else
    pure p1

/-- The per-level injection-plane state of RigidInjectedParticleContainer:
the stored plane position for the level, the previous and current working
copies, and the done-injecting flag. -/
structure RigidInjectedState where
  zinject_plane_levels : ℝ
  zinject_plane_lev_previous : ℝ
  zinject_plane_lev : ℝ
  done_injecting_lev : Bool

/-- The injection-plane update at the top of
RigidInjectedParticleContainer::Evolve: save the previous plane position,
advance the plane by -dt beta_boost c, and set the done-injecting flag when
the plane has left the domain [plo_z, phi_z] in the direction consistent with
the moving-window velocity plus the boost velocity. -/
def evolveInjectionStep (beta_boost moving_window_v plo_z phi_z dt : ℝ)
    (s : RigidInjectedState) : RigidInjectedState :=
  let prev := s.zinject_plane_levels
  let znew := prev - dt * beta_boost * PhysConst.c
  { zinject_plane_levels := znew
    zinject_plane_lev_previous := prev
    zinject_plane_lev := znew
    done_injecting_lev :=
      decide ((znew < plo_z ∧ moving_window_v + beta_boost * PhysConst.c ≥ 0) ∨
              (znew > phi_z ∧ moving_window_v + beta_boost * PhysConst.c ≤ 0)) }

/-- A sequence of Evolve calls for one level, with the per-call timesteps
given by the list dts. -/
def evolveInjectionSeq (beta_boost moving_window_v plo_z phi_z : ℝ)
    (dts : List ℝ) (s : RigidInjectedState) : RigidInjectedState :=
  dts.foldl (fun st d => evolveInjectionStep beta_boost moving_window_v plo_z phi_z d st) s

/-- Checked division: some (a / b) when the divisor is nonzero, none on a
division by zero.  Every runtime division of the cross-section formula is
expressed through it, so that isSome of the result states that no division
by zero is executed. -/
def cdiv (a b : ℝ) : Option ℝ :=
  if b = 0 then none else some (a / b)

namespace ProtonBoron

/-- The source's joule_to_kev conversion constant. -/
def joule_to_kev : ℝ := 1e-3 / PhysConst.q_e

/-- The source's joule_to_mev conversion constant. -/
def joule_to_mev : ℝ := 1e-6 / PhysConst.q_e

/-- The source's boron mass constant m_boron. -/
def m_boron : ℝ := 10.7319 * PhysConst.m_p

/-- The source's reduced mass constant m_reduced. -/
def m_reduced : ℝ := m_boron / (1 + m_boron / PhysConst.m_p)

/-- The source's Gamow factor constant, in MeV. -/
def gamow_factor : ℝ :=
  m_reduced / 2 *
    (PhysConst.q_e * PhysConst.q_e * 5 / (2 * PhysConst.ep0 * PhysConst.hbar)) *
    (PhysConst.q_e * PhysConst.q_e * 5 / (2 * PhysConst.ep0 * PhysConst.hbar)) *
    joule_to_mev

/-- The astrophysical factor S(E) of ProtonBoronFusionCrossSection, in MeV
barn, using the three fit regions of the source (E_kev below 400, between
400 and 642, and above), with each runtime division checked. -/
def astrophysicalFactor (E_kev : ℝ) : Option ℝ :=
  if E_kev < 400 then
    (cdiv 1.82e4 ((E_kev - 148) * (E_kev - 148) + 2.35 * 2.35)).map
      (fun resonance => 197 + 0.24 * E_kev + 2.31e-4 * E_kev * E_kev + resonance)
  else if E_kev < 642 then
    let E_norm := (E_kev - 400) * 1e-2
    some (330 + 66.1 * E_norm + (-20.3) * E_norm * E_norm + (-1.58) * E_norm ^ 5)
  else do
    let t0 ← cdiv 2.57e6 ((E_kev - 581.3) * (E_kev - 581.3) + 85.7 * 85.7)
    let t1 ← cdiv 5.67e5 ((E_kev - 1083) * (E_kev - 1083) + 234 * 234)
    let t2 ← cdiv 1.34e5 ((E_kev - 2405) * (E_kev - 2405) + 138 * 138)
    let t3 ← cdiv 5.68e5 ((E_kev - 3344) * (E_kev - 3344) + 309 * 309)
    pure (t0 + t1 + t2 + t3 + 4.38)

end ProtonBoron

/-- ProtonBoronFusionCrossSection: the guarded early return for zero kinetic
energy, then the Nevins-Swain fit evaluated with checked divisions; the
result is in square meters. -/
def ProtonBoronFusionCrossSection (E_kin_star : ℝ) : Option ℝ :=
  if E_kin_star = 0 then some 0
  else
    let E_kev := E_kin_star * ProtonBoron.joule_to_kev
    let E_mev := E_kin_star * ProtonBoron.joule_to_mev
    do
      let astrophysical_factor ← ProtonBoron.astrophysicalFactor E_kev
      let garg ← cdiv ProtonBoron.gamow_factor E_mev
      let cross_section_b ← cdiv astrophysical_factor E_mev
      pure (cross_section_b * Real.exp (-Real.sqrt garg) * 1e-28)

/-- The initialization type of a macroparameter of the macroscopic Maxwell
solver: a constant value or a user-supplied function of (x, y, z). -/
inductive MacroparameterInitType
  | ConstantValue
  | ParserFunction
  deriving DecidableEq

/-- The GetMacroparameter functor: the init type, the constant value m_value
and the user-supplied scalar function of (x, y, z) (the source's m_parser
executor, named m_parserF here). -/
structure GetMacroparameter where
  m_type : MacroparameterInitType
  m_value : ℝ
  m_parserF : ℝ → ℝ → ℝ → ℝ

/-- The call operator of GetMacroparameter: m_value for a constant init
type, the function value at (x, y, z) for a function init type.  The C++
else branch (amrex::Abort) is reachable only for an enum value outside the
two declared enumerators, which the Lean enumeration cannot represent. -/
def GetMacroparameter.call (g : GetMacroparameter) (x y z : ℝ) : ℝ :=
  match g.m_type with
  | .ConstantValue => g.m_value
  | .ParserFunction => g.m_parserF x y z

/-- Modelled from the spec: WarpXUtilAlgo::getCellCoordinates (the utility
header is not part of the analysed sources) maps the index (i, j, k) to the
physical coordinate using the field staggering (1 for a nodal dimension, 0
for a cell-centered one, offset by half a cell), the domain lower corner and
the cell size. -/
def getCellCoordinates (i j k : ℤ) (stag : Fin 3 → ℤ) (lo dx : Fin 3 → ℝ) :
    ℝ × ℝ × ℝ :=
  (lo 0 + ((i : ℝ) + (1 - ((stag 0 : ℤ) : ℝ)) / 2) * dx 0,
   lo 1 + ((j : ℝ) + (1 - ((stag 1 : ℤ) : ℝ)) / 2) * dx 1,
   lo 2 + ((k : ℝ) + (1 - ((stag 2 : ℤ) : ℝ)) / 2) * dx 2)

/-- The FieldAccessorMacroscopic functor: the stored field Array4 (as a
function of the four indices), the macroparameter functor, the field
staggering, the domain lower corner and the cell size. -/
structure FieldAccessorMacroscopic where
  m_field : ℤ → ℤ → ℤ → ℤ → ℝ
  m_getParameter : GetMacroparameter
  m_field_stag : Fin 3 → ℤ
  m_domain_lo : Fin 3 → ℝ
  m_dx : Fin 3 → ℝ

/-- The call operator of FieldAccessorMacroscopic: the stored field value at
(i, j, k, ncomp) divided by the macroparameter evaluated at the physical
coordinate of (i, j, k). -/
def FieldAccessorMacroscopic.call (a : FieldAccessorMacroscopic)
    (i j k ncomp : ℤ) : ℝ :=
  let xyz := getCellCoordinates i j k a.m_field_stag a.m_domain_lo a.m_dx
  a.m_field i j k ncomp / a.m_getParameter.call xyz.1 xyz.2.1 xyz.2.2

theorem UpdateMomentumBoris_dt_zero (u : Vec3) (F : EMField) (q m : ℝ) :
    UpdateMomentumBoris u F q m 0 = u := by
  simp [UpdateMomentumBoris]

theorem UpdateMomentumVay_dt_zero (u : Vec3) (F : EMField) (q m : ℝ) :
    UpdateMomentumVay u F q m 0 = u := by
  simp [UpdateMomentumVay]

theorem UpdateMomentumHigueraCary_dt_zero (u : Vec3) (F : EMField) (q m : ℝ) :
    UpdateMomentumHigueraCary u F q m 0 = u := by
  simp [UpdateMomentumHigueraCary]

theorem UpdateMomentumBorisWithRadiationReaction_dt_zero
    (frr : Vec3 → EMField → Vec3) (u : Vec3) (F : EMField) (q m : ℝ) :
    UpdateMomentumBorisWithRadiationReaction frr u F q m 0 = u := by
  simp [UpdateMomentumBorisWithRadiationReaction, UpdateMomentumBoris_dt_zero]

theorem pushPMomentum_dt_zero (pusher_algo : ℕ) (do_crr : Bool)
    (frr : Vec3 → EMField → Vec3) (u : Vec3) (F : EMField) (q m : ℝ)
    (halgo : do_crr = true ∨ pusher_algo = ParticlePusherAlgo.Boris ∨
      pusher_algo = ParticlePusherAlgo.Vay ∨
      pusher_algo = ParticlePusherAlgo.HigueraCary) :
    pushPMomentum pusher_algo do_crr frr u F q m 0 = .ok u := by
  rcases hc : do_crr with _ | _
  · rcases halgo with h | h | h | h
    · simp [hc] at h
    all_goals
      subst h
      simp [pushPMomentum, ParticlePusherAlgo.Boris, ParticlePusherAlgo.Vay,
        ParticlePusherAlgo.HigueraCary, UpdateMomentumBoris_dt_zero,
        UpdateMomentumVay_dt_zero, UpdateMomentumHigueraCary_dt_zero]
  · simp [pushPMomentum, UpdateMomentumBorisWithRadiationReaction_dt_zero]

/-- C2: on every Evolve call for a level, the injection-plane position is
first advanced by exactly -dt beta_boost c with the previous position saved
(also into the working copy zinject_plane_lev), and the done-injecting flag
is set exactly when the advanced plane lies outside the domain boundary in
the direction consistent with the moving-window velocity plus the boost
velocity: below the lower z-bound with moving_window_v + beta_boost c >= 0,
or above the upper z-bound with moving_window_v + beta_boost c <= 0; by the
stated equivalence the flag is never set before the plane crosses the
relevant boundary. -/
theorem evolve_injection_plane_step_spec
    (beta_boost moving_window_v plo_z phi_z dt : ℝ) (s : RigidInjectedState) :
    (evolveInjectionStep beta_boost moving_window_v plo_z phi_z dt
        s).zinject_plane_lev_previous = s.zinject_plane_levels ∧
    (evolveInjectionStep beta_boost moving_window_v plo_z phi_z dt
        s).zinject_plane_levels
      = s.zinject_plane_levels - dt * beta_boost * PhysConst.c ∧
    (evolveInjectionStep beta_boost moving_window_v plo_z phi_z dt
        s).zinject_plane_lev
      = s.zinject_plane_levels - dt * beta_boost * PhysConst.c ∧
    ((evolveInjectionStep beta_boost moving_window_v plo_z phi_z dt
        s).done_injecting_lev = true ↔
      ((s.zinject_plane_levels - dt * beta_boost * PhysConst.c < plo_z ∧
          moving_window_v + beta_boost * PhysConst.c ≥ 0) ∨
        (s.zinject_plane_levels - dt * beta_boost * PhysConst.c > phi_z ∧
          moving_window_v + beta_boost * PhysConst.c ≤ 0))) := by
  refine ⟨rfl, rfl, rfl, ?_⟩
  simp [evolveInjectionStep]

theorem evolve_injection_plane_step_spec_witness :
    (evolveInjectionStep 0 1 0 1 1
        (RigidInjectedState.mk (-2) 0 0 false)).done_injecting_lev = true :=
  ((evolve_injection_plane_step_spec 0 1 0 1 1
      (RigidInjectedState.mk (-2) 0 0 false)).2.2.2).mpr (Or.inl (by norm_num))

/-- C4: when the done-injecting flag of the level is set, PushPX fills no
snapshot buffer, and the outcome for every particle is exactly the generic
PhysicalParticleContainer push, invoked with the scale-fields correction
disabled (do_scale = false); with do_scale = false the ScaleFields functor
leaves the gathered fields untouched. -/
theorem pushPX_done_uses_generic_push (rigid_advance : Bool)
    (zinject_plane_lev zinject_plane_lev_previous vzbeam_ave_boosted beta_boost : ℝ)
    (pusher_algo : ℕ) (do_crr : Bool) (frr : Vec3 → EMField → Vec3)
    (sfun : ScaleFields → Particle → EMField → EMField)
    (fields : Particle → EMField) (q m dt : ℝ) (p : Particle) :
    rigidPushPX true rigid_advance zinject_plane_lev zinject_plane_lev_previous
        vzbeam_ave_boosted beta_boost pusher_algo do_crr frr sfun fields q m dt p
      = physicalPushPX pusher_algo do_crr frr sfun fields
          (ScaleFields.mk false dt zinject_plane_lev_previous vzbeam_ave_boosted
            (beta_boost * PhysConst.c)) q m dt p ∧
    pushPXSnapshot true p = none ∧
    applyScaleFields sfun
        (ScaleFields.mk false dt zinject_plane_lev_previous vzbeam_ave_boosted
          (beta_boost * PhysConst.c)) p (fields p)
      = fields p := by
  refine ⟨?_, rfl, rfl⟩
  cases h : physicalPushPX pusher_algo do_crr frr sfun fields
      (ScaleFields.mk false dt zinject_plane_lev_previous vzbeam_ave_boosted
        (beta_boost * PhysConst.c)) q m dt p with
  | error e => simp [rigidPushPX, pushPXSnapshot, h]
  | ok pushed => simp [rigidPushPX, pushPXSnapshot, h]

/-- C8: for every index (i, j, k, ncomp) the FieldAccessorMacroscopic call
operator returns the stored field value divided by the macroparameter
evaluated at the physical coordinate obtained from (i, j, k) via the field
staggering, the domain lower corner and the cell size; the macroparameter
functor returns its constant m_value for the ConstantValue init type and the
user function value at (x, y, z) for the ParserFunction init type (both are
pure functions of their arguments, hence side-effect free). -/
theorem fieldAccessorMacroscopic_spec (a : FieldAccessorMacroscopic)
    (i j k ncomp : ℤ) (g : GetMacroparameter) (x y z : ℝ) :
    a.call i j k ncomp
      = a.m_field i j k ncomp /
          a.m_getParameter.call
            (getCellCoordinates i j k a.m_field_stag a.m_domain_lo a.m_dx).1
            (getCellCoordinates i j k a.m_field_stag a.m_domain_lo a.m_dx).2.1
            (getCellCoordinates i j k a.m_field_stag a.m_domain_lo a.m_dx).2.2 ∧
    (g.m_type = .ConstantValue → g.call x y z = g.m_value) ∧
    (g.m_type = .ParserFunction → g.call x y z = g.m_parserF x y z) := by
  refine ⟨rfl, ?_, ?_⟩ <;> intro h <;> simp [GetMacroparameter.call, h]

theorem fieldAccessorMacroscopic_spec_witness :
    (GetMacroparameter.mk .ConstantValue 5 (fun _ _ _ => 0)).call 1 2 3 = 5 ∧
    (GetMacroparameter.mk .ParserFunction 0 (fun u v w => u + v + w)).call 1 2 3
      = 1 + 2 + 3 :=
  ⟨(fieldAccessorMacroscopic_spec
      ⟨fun _ _ _ _ => 0, ⟨.ConstantValue, 5, fun _ _ _ => 0⟩,
        fun _ => 0, fun _ => 0, fun _ => 0⟩ 0 0 0 0
      (GetMacroparameter.mk .ConstantValue 5 (fun _ _ _ => 0)) 1 2 3).2.1 rfl,
   (fieldAccessorMacroscopic_spec
      ⟨fun _ _ _ _ => 0, ⟨.ConstantValue, 5, fun _ _ _ => 0⟩,
        fun _ => 0, fun _ => 0, fun _ => 0⟩ 0 0 0 0
      (GetMacroparameter.mk .ParserFunction 0 (fun u v w => u + v + w)) 1 2 3).2.2 rfl⟩

/-- C10: species::from_string maps the alias proton to the same species as
hydrogen and the alias alpha to the same species as helium; get_name after
from_string is the identity on every canonical name, but yields hydrogen for
proton and helium for alpha; and from_string aborts for every string outside
the accepted set. -/
theorem species_from_string_alias_spec :
    (species.from_string "proton" = .ok .hydrogen ∧
     species.from_string "hydrogen" = .ok .hydrogen ∧
     species.from_string "alpha" = .ok .helium ∧
     species.from_string "helium" = .ok .helium) ∧
    (∀ s ∈ canonicalSpeciesNames,
      (species.from_string s).bind species.get_name = .ok s) ∧
    ((species.from_string "proton").bind species.get_name = .ok "hydrogen" ∧
     (species.from_string "alpha").bind species.get_name = .ok "helium") ∧
    (∀ s : String, s ∉ acceptedSpeciesNames →
      species.from_string s = .error "unknown PhysicalSpecies") := by
  refine ⟨⟨rfl, rfl, rfl, rfl⟩, ?_, ⟨rfl, rfl⟩, ?_⟩
  · intro s hs
    simp only [canonicalSpeciesNames, List.mem_cons, List.not_mem_nil,
      or_false] at hs
    rcases hs with rfl | rfl | rfl | rfl | rfl | rfl | rfl | rfl | rfl | rfl | rfl
      <;> rfl
  · intro s hs
    simp [acceptedSpeciesNames, canonicalSpeciesNames] at hs
    obtain ⟨h1, h2, h3, h4, h5, h6, h7, h8, h9, h10, h11, h12, h13⟩ := hs
    simp [species.from_string, h1, h2, h3, h4, h5, h6, h7, h8, h9, h10, h11,
      h12, h13]

theorem species_from_string_alias_spec_witness :
    (species.from_string "oxygen").bind species.get_name = .ok "oxygen" ∧
    species.from_string "muon" = .error "unknown PhysicalSpecies" :=
  ⟨species_from_string_alias_spec.2.1 "oxygen" (by decide),
   species_from_string_alias_spec.2.2.2 "muon" (by decide)⟩

/-- C6 counterexample: querying the charge or the mass of the unspecified
physical species does not terminate the process: species::get_charge and
species::get_mass return the quiet-NaN degraded value through their
unspecified switch case (an ok result, not the abort of the default
branch), refuting the claim that an unspecified species aborts at first
use. -/
theorem get_unspecified_species_no_abort_cex :
    species.get_charge .unspecified = .ok .nan ∧
    species.get_mass .unspecified = .ok .nan :=
  ⟨rfl, rfl⟩

/-- C6 amended: an unknown pusher algorithm (neither Boris nor Vay nor
Higuera-Cary, with radiation reaction disabled) makes the per-particle
momentum update abort the process at first use; querying the charge or the
mass of the unspecified physical species, however, does not abort: both
return a quiet NaN. -/
theorem config_error_abort_spec (pusher_algo : ℕ) (do_crr : Bool)
    (frr : Vec3 → EMField → Vec3) (u : Vec3) (F : EMField) (q m dt : ℝ)
    (hcrr : do_crr = false)
    (hb : pusher_algo ≠ ParticlePusherAlgo.Boris)
    (hv : pusher_algo ≠ ParticlePusherAlgo.Vay)
    (hh : pusher_algo ≠ ParticlePusherAlgo.HigueraCary) :
    pushPMomentum pusher_algo do_crr frr u F q m dt
      = .error "Unknown particle pusher" ∧
    species.get_charge .unspecified = .ok .nan ∧
    species.get_mass .unspecified = .ok .nan := by
  refine ⟨?_, rfl, rfl⟩
  simp [pushPMomentum, hcrr, hb, hv, hh]

theorem config_error_abort_spec_witness :
    pushPMomentum 7 false (fun _ _ => ⟨0, 0, 0⟩) ⟨0, 0, 0⟩ ⟨0, 0, 0, 0, 0, 0⟩ 0 0 0
      = .error "Unknown particle pusher" ∧
    species.get_charge .unspecified = .ok .nan ∧
    species.get_mass .unspecified = .ok .nan :=
  config_error_abort_spec 7 false (fun _ _ => ⟨0, 0, 0⟩) ⟨0, 0, 0⟩ ⟨0, 0, 0, 0, 0, 0⟩
    0 0 0 rfl (by decide) (by decide) (by decide)

/-- C3 counterexample: the done-injecting flag is recomputed from the plane
position on every Evolve call and is not monotone for every parameter value:
with beta_boost = 1, moving_window_v = -2c, domain [0, 1], dt = 1 and the
plane starting at 3c/2, the first step sets the flag (plane c/2 above the
upper bound, window-plus-boost velocity -c at-or-below zero) and the second
step clears it again (plane -c/2, no disjunct holds). -/
theorem done_injecting_not_monotone_cex :
    (evolveInjectionStep 1 (-2 * PhysConst.c) 0 1 1
        (RigidInjectedState.mk (3 / 2 * PhysConst.c) 0 0 false)).done_injecting_lev
      = true ∧
    (evolveInjectionStep 1 (-2 * PhysConst.c) 0 1 1
        (evolveInjectionStep 1 (-2 * PhysConst.c) 0 1 1
          (RigidInjectedState.mk (3 / 2 * PhysConst.c) 0 0 false))).done_injecting_lev
      = false := by
  constructor <;> simp [evolveInjectionStep, PhysConst.c] <;> norm_num

theorem evolve_done_stays_aux (beta_boost moving_window_v plo_z phi_z : ℝ)
    (hmw : 0 < moving_window_v + beta_boost * PhysConst.c) :
    ∀ (dts : List ℝ) (s : RigidInjectedState),
      (∀ d ∈ dts, 0 ≤ d * beta_boost * PhysConst.c) →
      s.zinject_plane_levels < plo_z → s.done_injecting_lev = true →
      (evolveInjectionSeq beta_boost moving_window_v plo_z phi_z dts
          s).zinject_plane_levels < plo_z ∧
      (evolveInjectionSeq beta_boost moving_window_v plo_z phi_z dts
          s).done_injecting_lev = true := by
  intro dts
  induction dts with
  | nil => exact fun s _ h1 h2 => ⟨h1, h2⟩
  | cons d rest ih =>
      intro s hd h1 _
      have hd0 : 0 ≤ d * beta_boost * PhysConst.c := hd d (by simp)
      have hplane :
          (evolveInjectionStep beta_boost moving_window_v plo_z phi_z d
            s).zinject_plane_levels < plo_z := by
        simp only [evolveInjectionStep]
        linarith
      have hdone :
          (evolveInjectionStep beta_boost moving_window_v plo_z phi_z d
            s).done_injecting_lev = true := by
        simp only [evolveInjectionStep, decide_eq_true_eq]
        exact Or.inl ⟨by simpa [evolveInjectionStep] using hplane, le_of_lt hmw⟩
      have hrest : ∀ e ∈ rest, 0 ≤ e * beta_boost * PhysConst.c :=
        fun e he => hd e (List.mem_cons_of_mem _ he)
      simpa [evolveInjectionSeq] using
        ih (evolveInjectionStep beta_boost moving_window_v plo_z phi_z d s)
          hrest hplane hdone

/-- C3 amended: the done-injecting flag of a level is monotone along every
sequence of Evolve steps provided the plane motion is consistent with the
window direction: when the moving-window velocity plus the boost velocity is
strictly positive and every step displacement dt beta_boost c is
nonnegative, a flag set by one Evolve step remains set by every subsequent
step.  (For other parameter signs the code recomputes the flag and can clear
it again, as the counterexample shows.) -/
theorem done_injecting_monotone (beta_boost moving_window_v plo_z phi_z d0 : ℝ)
    (dts : List ℝ) (s : RigidInjectedState)
    (hmw : 0 < moving_window_v + beta_boost * PhysConst.c)
    (hd : ∀ d ∈ dts, 0 ≤ d * beta_boost * PhysConst.c)
    (hdone : (evolveInjectionStep beta_boost moving_window_v plo_z phi_z d0
        s).done_injecting_lev = true) :
    (evolveInjectionSeq beta_boost moving_window_v plo_z phi_z dts
        (evolveInjectionStep beta_boost moving_window_v plo_z phi_z d0
          s)).done_injecting_lev = true := by
  have h := hdone
  simp only [evolveInjectionStep, decide_eq_true_eq] at h
  rcases h with ⟨hlt, _⟩ | ⟨_, hle⟩
  · refine (evolve_done_stays_aux beta_boost moving_window_v plo_z phi_z hmw dts
      _ hd ?_ hdone).2
    simpa [evolveInjectionStep] using hlt
  · linarith

theorem done_injecting_monotone_witness :
    (evolveInjectionSeq 0 1 0 1 [1, 2]
        (evolveInjectionStep 0 1 0 1 0
          (RigidInjectedState.mk (-1) 0 0 false))).done_injecting_lev = true :=
  done_injecting_monotone 0 1 0 1 0 [1, 2] (RigidInjectedState.mk (-1) 0 0 false)
    (by norm_num) (by norm_num) (by norm_num [evolveInjectionStep])

theorem Except.ok_bind {e a b : Type} (x : a) (f : a → Except e b) :
    (Except.ok x >>= f : Except e b) = f x := rfl

theorem pure_eq_ok {e a : Type} (x : a) : (pure x : Except e a) = Except.ok x := rfl

theorem Except.bind_eq_ok {e a b : Type} {x : Except e a} {f : a → Except e b} {v : b}
    (h : x >>= f = .ok v) : ∃ w, x = .ok w ∧ f w = .ok v := by
  cases x with
  | error err =>
      rw [show ((Except.error err : Except e a) >>= f) = Except.error err from rfl] at h
      exact absurd h (by simp)
  | ok w => exact ⟨w, rfl, h⟩

theorem physicalPushPX_dt_zero (pusher_algo : ℕ) (do_crr : Bool)
    (frr : Vec3 → EMField → Vec3) (sfun : ScaleFields → Particle → EMField → EMField)
    (fields : Particle → EMField) (sf : ScaleFields) (q m : ℝ) (p : Particle)
    (halgo : do_crr = true ∨ pusher_algo = ParticlePusherAlgo.Boris ∨
      pusher_algo = ParticlePusherAlgo.Vay ∨
      pusher_algo = ParticlePusherAlgo.HigueraCary) :
    physicalPushPX pusher_algo do_crr frr sfun fields sf q m 0 p = .ok p := by
  simp only [physicalPushPX]
  rw [pushPMomentum_dt_zero _ _ _ _ _ _ _ halgo, Except.ok_bind, pure_eq_ok,
    Except.ok.injEq]
  conv_rhs => rw [show p = Particle.mk p.x p.y p.z p.ux p.uy p.uz from rfl]
  rw [Particle.mk.injEq]
  norm_num

theorem rigidPXCorrection_dt_zero (rigid_advance : Bool) (zlev vz : ℝ) (p : Particle) :
    rigidPXCorrection rigid_advance zlev vz 0 p p = p := by
  unfold rigidPXCorrection
  split_ifs with h1 h2
  · conv_rhs => rw [show p = Particle.mk p.x p.y p.z p.ux p.uy p.uz from rfl]
    rw [Particle.mk.injEq]
    norm_num
  · conv_rhs => rw [show p = Particle.mk p.x p.y p.z p.ux p.uy p.uz from rfl]
    rw [Particle.mk.injEq]
    norm_num
  · rfl

/-- C1 counterexample: while injecting, in non-rigid mode, a particle whose
post-push z lies at-or-below the plane does not get its z restored to the
pre-push value: with zero charge and zero fields (so the generic push leaves
the momentum untouched), a particle starting at z = 0 with uz = 3c/4 is
pushed to z = 3c/5 (at-or-below the plane c) and the correction loop leaves
it at z = 3c/5 = 0 + dt uz/gamma, not at the pre-push z = 0. -/
theorem pushPX_nonrigid_z_not_restored_cex :
    rigidPushPX false false PhysConst.c 0 0 0 0 false (fun _ _ => ⟨0, 0, 0⟩)
        (fun _ _ F => F) (fun _ => EMField.mk 0 0 0 0 0 0) 0 1 1
        (Particle.mk 0 0 0 0 0 (3 * PhysConst.c / 4))
      = .ok (Particle.mk 0 0 (3 * PhysConst.c / 5) 0 0 (3 * PhysConst.c / 4)) ∧
    (3 * PhysConst.c / 5 : ℝ) ≤ PhysConst.c ∧
    (3 * PhysConst.c / 5 : ℝ) ≠ 0 := by
  have hb : UpdateMomentumBoris (Vec3.mk 0 0 (3 * PhysConst.c / 4))
      (EMField.mk 0 0 0 0 0 0) 0 1 1 = Vec3.mk 0 0 (3 * PhysConst.c / 4) := by
    simp [UpdateMomentumBoris]
  have hu : pushPMomentum 0 false (fun _ _ => ⟨0, 0, 0⟩)
      (Vec3.mk 0 0 (3 * PhysConst.c / 4)) (EMField.mk 0 0 0 0 0 0) 0 1 1
      = .ok (Vec3.mk 0 0 (3 * PhysConst.c / 4)) := by
    simp [pushPMomentum, ParticlePusherAlgo.Boris, hb]
  have hs : Real.sqrt (1 +
      (0 * 0 + 0 * 0 + 3 * PhysConst.c / 4 * (3 * PhysConst.c / 4)) * inv_c2)
      = 5 / 4 := by
    have h : (1 + (0 * 0 + 0 * 0 + 3 * PhysConst.c / 4 * (3 * PhysConst.c / 4)) *
        inv_c2 : ℝ) = (5 / 4) ^ 2 := by
      simp [inv_c2, PhysConst.c]
      norm_num
    rw [h, Real.sqrt_sq (by norm_num)]
  have hphys : physicalPushPX 0 false (fun _ _ => ⟨0, 0, 0⟩) (fun _ _ F => F)
      (fun _ => EMField.mk 0 0 0 0 0 0)
      (ScaleFields.mk true 1 0 0 (0 * PhysConst.c)) 0 1 1
      (Particle.mk 0 0 0 0 0 (3 * PhysConst.c / 4))
      = .ok (Particle.mk 0 0 (3 * PhysConst.c / 5) 0 0 (3 * PhysConst.c / 4)) := by
    simp only [physicalPushPX, applyScaleFields]
    simp only [if_true]
    rw [show (Vec3.mk (Particle.mk 0 0 0 0 0 (3 * PhysConst.c / 4)).ux
        (Particle.mk 0 0 0 0 0 (3 * PhysConst.c / 4)).uy
        (Particle.mk 0 0 0 0 0 (3 * PhysConst.c / 4)).uz)
        = Vec3.mk 0 0 (3 * PhysConst.c / 4) from rfl]
    rw [hu, Except.ok_bind]
    simp only [hs]
    show Except.ok _ = _
    rw [Except.ok.injEq]
    rw [Particle.mk.injEq]
    norm_num
    ring
  have hcor : rigidPXCorrection false PhysConst.c 0 1
      (Particle.mk 0 0 0 0 0 (3 * PhysConst.c / 4))
      (Particle.mk 0 0 (3 * PhysConst.c / 5) 0 0 (3 * PhysConst.c / 4))
      = Particle.mk 0 0 (3 * PhysConst.c / 5) 0 0 (3 * PhysConst.c / 4) := by
    unfold rigidPXCorrection
    rw [if_pos (show (Particle.mk 0 0 (3 * PhysConst.c / 5) 0 0
        (3 * PhysConst.c / 4)).z ≤ PhysConst.c by
      show (3 * PhysConst.c / 5 : ℝ) ≤ PhysConst.c
      norm_num [PhysConst.c])]
    simp only [if_false]
    rw [Particle.mk.injEq]
    norm_num
    have hs2 : Real.sqrt (1 + 3 * PhysConst.c / 4 * (3 * PhysConst.c / 4) * inv_c2)
        = 5 / 4 := by
      have h : (1 + 3 * PhysConst.c / 4 * (3 * PhysConst.c / 4) * inv_c2 : ℝ)
          = (5 / 4) ^ 2 := by
        simp [inv_c2, PhysConst.c]
        norm_num
      rw [h, Real.sqrt_sq (by norm_num)]
    rw [hs2]
    norm_num [PhysConst.c]
  refine ⟨?_, by norm_num [PhysConst.c], by norm_num [PhysConst.c]⟩
  unfold rigidPushPX pushPXSnapshot
  simp only [Bool.not_false]
  rw [hphys, Except.ok_bind]
  show Except.ok (rigidPXCorrection false PhysConst.c 0 1
      (Particle.mk 0 0 0 0 0 (3 * PhysConst.c / 4))
      (Particle.mk 0 0 (3 * PhysConst.c / 5) 0 0 (3 * PhysConst.c / 4)))
    = Except.ok (Particle.mk 0 0 (3 * PhysConst.c / 5) 0 0 (3 * PhysConst.c / 4))
  rw [hcor]

/-- C1 amended: while the level is injecting (done flag not set), for every
particle processed by PushPX whose generic push succeeds: if the post-push z
is at-or-below the injection plane, the momentum and the x, y position are
restored from the pre-push snapshot, and the z position is set to the
pre-push z advanced by dt times the average beam velocity when rigid_advance
is configured, and otherwise by dt times the restored particle velocity
uz/gamma (not left at the pre-push value); if the post-push z is strictly
above the plane, the pushed state is kept unchanged. -/
theorem pushPX_injecting_restore_spec (rigid_advance : Bool)
    (zinject_plane_lev zinject_plane_lev_previous vzbeam_ave_boosted beta_boost : ℝ)
    (pusher_algo : ℕ) (do_crr : Bool) (frr : Vec3 → EMField → Vec3)
    (sfun : ScaleFields → Particle → EMField → EMField) (fields : Particle → EMField)
    (q m dt : ℝ) (p pushed : Particle)
    (hgen : physicalPushPX pusher_algo do_crr frr sfun fields
        (ScaleFields.mk true dt zinject_plane_lev_previous vzbeam_ave_boosted
          (beta_boost * PhysConst.c)) q m dt p = .ok pushed) :
    rigidPushPX false rigid_advance zinject_plane_lev zinject_plane_lev_previous
        vzbeam_ave_boosted beta_boost pusher_algo do_crr frr sfun fields q m dt p
      = .ok (if pushed.z ≤ zinject_plane_lev then
               { x := p.x, y := p.y,
                 z := if rigid_advance then p.z + dt * vzbeam_ave_boosted
                      else p.z + dt * p.uz * (1 / Real.sqrt (1 +
                        (p.ux * p.ux + p.uy * p.uy + p.uz * p.uz) * inv_c2)),
                 ux := p.ux, uy := p.uy, uz := p.uz }
             else pushed) := by
  unfold rigidPushPX pushPXSnapshot
  simp only [Bool.not_false]
  rw [hgen, Except.ok_bind]
  rfl

theorem pushPX_injecting_restore_spec_witness :
    rigidPushPX false false 10 0 0 0 0 false (fun _ _ => ⟨0, 0, 0⟩) (fun _ _ F => F)
        (fun _ => EMField.mk 0 0 0 0 0 0) 0 1 0 (Particle.mk 1 2 3 0 0 0)
      = .ok (Particle.mk 1 2 3 0 0 0) := by
  have h := pushPX_injecting_restore_spec false 10 0 0 0 0 false (fun _ _ => ⟨0, 0, 0⟩)
      (fun _ _ F => F) (fun _ => EMField.mk 0 0 0 0 0 0) 0 1 0 (Particle.mk 1 2 3 0 0 0)
      (Particle.mk 1 2 3 0 0 0)
      (physicalPushPX_dt_zero 0 false (fun _ _ => ⟨0, 0, 0⟩) (fun _ _ F => F)
        (fun _ => EMField.mk 0 0 0 0 0 0) (ScaleFields.mk true 0 0 0 (0 * PhysConst.c))
        0 1 (Particle.mk 1 2 3 0 0 0) (Or.inr (Or.inl rfl)))
  rw [h]
  rw [if_pos (show (Particle.mk 1 2 3 0 0 0).z ≤ (10 : ℝ) by norm_num)]
  rw [Except.ok.injEq, Particle.mk.injEq]
  norm_num

/-- C5: invoking the rigid-injection push with dt = 0 leaves every particle
momentum component and position component unchanged, for every particle
state, every field configuration and scaling, every injection-plane state,
and every configured pusher variant (radiation reaction, Boris, Vay or
Higuera-Cary), both for PushPX (including the restore path, whose z
corrections are multiplied by dt) and for the momentum-only PushP. -/
theorem push_dt_zero_identity (done_injecting_lev rigid_advance : Bool)
    (zinject_plane_lev zinject_plane_lev_previous vzbeam_ave_boosted beta_boost : ℝ)
    (pusher_algo : ℕ) (do_crr : Bool) (frr : Vec3 → EMField → Vec3)
    (sfun : ScaleFields → Particle → EMField → EMField) (fields : Particle → EMField)
    (ion_lev : Option ℤ) (q m zinject_plane : ℝ) (p : Particle)
    (halgo : do_crr = true ∨ pusher_algo = ParticlePusherAlgo.Boris ∨
      pusher_algo = ParticlePusherAlgo.Vay ∨
      pusher_algo = ParticlePusherAlgo.HigueraCary) :
    rigidPushPX done_injecting_lev rigid_advance zinject_plane_lev
        zinject_plane_lev_previous vzbeam_ave_boosted beta_boost pusher_algo do_crr
        frr sfun fields q m 0 p = .ok p ∧
    rigidPushP pusher_algo do_crr frr fields ion_lev q m 0 zinject_plane p = .ok p := by
  constructor
  · cases done_injecting_lev with
    | false =>
        unfold rigidPushPX pushPXSnapshot
        simp only [Bool.not_false]
        rw [physicalPushPX_dt_zero _ _ _ _ _ _ _ _ _ halgo, Except.ok_bind]
        show Except.ok (rigidPXCorrection rigid_advance zinject_plane_lev
          vzbeam_ave_boosted 0 p p) = Except.ok p
        rw [rigidPXCorrection_dt_zero]
    | true =>
        unfold rigidPushPX pushPXSnapshot
        simp only [Bool.not_true]
        rw [physicalPushPX_dt_zero _ _ _ _ _ _ _ _ _ halgo, Except.ok_bind]
        rfl
  · simp only [rigidPushP]
    rw [pushPMomentum_dt_zero _ _ _ _ _ _ _ halgo, Except.ok_bind]
    split_ifs with h
    · rfl
    · rfl

theorem push_dt_zero_identity_witness :
    rigidPushPX true false 0 0 0 0 0 false (fun _ _ => ⟨0, 0, 0⟩) (fun _ _ F => F)
        (fun _ => EMField.mk 0 0 0 0 0 0) 0 1 0 (Particle.mk 1 2 3 4 5 6)
      = .ok (Particle.mk 1 2 3 4 5 6) ∧
    rigidPushP 0 false (fun _ _ => ⟨0, 0, 0⟩) (fun _ => EMField.mk 0 0 0 0 0 0)
        none 0 1 0 0 (Particle.mk 1 2 3 4 5 6) = .ok (Particle.mk 1 2 3 4 5 6) :=
  push_dt_zero_identity true false 0 0 0 0 0 false (fun _ _ => ⟨0, 0, 0⟩)
    (fun _ _ F => F) (fun _ => EMField.mk 0 0 0 0 0 0) none 0 1 0
    (Particle.mk 1 2 3 4 5 6) (Or.inr (Or.inl rfl))

/-- C9: the diagnostic momentum-only push PushP never modifies a particle
position: whenever it succeeds, all three position components are unchanged,
regardless of the pusher variant, the gathered fields, the ionization level
and the injection plane; and for a particle at-or-below the injection plane
even the momentum is restored to its saved pre-push value. -/
theorem pushP_preserves_position (pusher_algo : ℕ) (do_crr : Bool)
    (frr : Vec3 → EMField → Vec3) (fields : Particle → EMField)
    (ion_lev : Option ℤ) (q m dt zinject_plane : ℝ) (p q1 : Particle)
    (h : rigidPushP pusher_algo do_crr frr fields ion_lev q m dt zinject_plane p
      = .ok q1) :
    (q1.x = p.x ∧ q1.y = p.y ∧ q1.z = p.z) ∧
    (p.z ≤ zinject_plane → q1.ux = p.ux ∧ q1.uy = p.uy ∧ q1.uz = p.uz) := by
  simp only [rigidPushP] at h
  obtain ⟨u, hu, h2⟩ := Except.bind_eq_ok h
  split_ifs at h2 with hz
  · rw [pure_eq_ok, Except.ok.injEq] at h2
    subst h2
    exact ⟨⟨rfl, rfl, rfl⟩, fun _ => ⟨rfl, rfl, rfl⟩⟩
  · rw [pure_eq_ok, Except.ok.injEq] at h2
    subst h2
    exact ⟨⟨rfl, rfl, rfl⟩, fun hzz => absurd hzz hz⟩

theorem pushP_preserves_position_witness :
    rigidPushP 0 false (fun _ _ => ⟨0, 0, 0⟩) (fun _ => EMField.mk 0 0 0 0 0 0)
        none 0 1 0 5 (Particle.mk 1 2 3 4 5 6) = .ok (Particle.mk 1 2 3 4 5 6) ∧
    ((Particle.mk 1 2 3 4 5 6).x = 1 ∧ (Particle.mk 1 2 3 4 5 6).y = 2 ∧
      (Particle.mk 1 2 3 4 5 6).z = 3) := by
  have hpush : rigidPushP 0 false (fun _ _ => ⟨0, 0, 0⟩)
      (fun _ => EMField.mk 0 0 0 0 0 0) none 0 1 0 5 (Particle.mk 1 2 3 4 5 6)
      = .ok (Particle.mk 1 2 3 4 5 6) := by
    simp only [rigidPushP]
    rw [pushPMomentum_dt_zero 0 false _ _ _ _ _ (Or.inr (Or.inl rfl)), Except.ok_bind]
    split_ifs with h
    · rfl
    · rfl
  refine ⟨hpush, ?_⟩
  have h := pushP_preserves_position 0 false (fun _ _ => ⟨0, 0, 0⟩)
    (fun _ => EMField.mk 0 0 0 0 0 0) none 0 1 0 5 (Particle.mk 1 2 3 4 5 6)
    (Particle.mk 1 2 3 4 5 6) hpush
  exact h.1

theorem cdiv_of_ne (a b : ℝ) (h : b ≠ 0) : cdiv a b = some (a / b) := by
  simp [cdiv, h]

theorem astrophysicalFactor_isSome (x : ℝ) :
    (ProtonBoron.astrophysicalFactor x).isSome = true := by
  unfold ProtonBoron.astrophysicalFactor
  split_ifs with h1 h2
  · have d : (x - 148) * (x - 148) + 2.35 * 2.35 ≠ 0 := by
      nlinarith [mul_self_nonneg (x - 148)]
    rw [cdiv_of_ne _ _ d]
    simp
  · simp
  · have d0 : (x - 581.3) * (x - 581.3) + 85.7 * 85.7 ≠ 0 := by
      nlinarith [mul_self_nonneg (x - 581.3)]
    have d1 : (x - 1083) * (x - 1083) + 234 * 234 ≠ 0 := by
      nlinarith [mul_self_nonneg (x - 1083)]
    have d2 : (x - 2405) * (x - 2405) + 138 * 138 ≠ 0 := by
      nlinarith [mul_self_nonneg (x - 2405)]
    have d3 : (x - 3344) * (x - 3344) + 309 * 309 ≠ 0 := by
      nlinarith [mul_self_nonneg (x - 3344)]
    simp only [cdiv_of_ne _ _ d0, cdiv_of_ne _ _ d1, cdiv_of_ne _ _ d2,
      cdiv_of_ne _ _ d3]
    simp

/-- C7: for zero input kinetic energy ProtonBoronFusionCrossSection returns 0
through the guarded early return, executing no division; for every nonzero
input every checked division of the evaluation (by the energy and by the fit
denominators) has a nonzero divisor, so the result is defined and no
division by zero is ever executed. -/
theorem protonBoron_cross_section_zero_guard :
    ProtonBoronFusionCrossSection 0 = some 0 ∧
    ∀ E : ℝ, E ≠ 0 → (ProtonBoronFusionCrossSection E).isSome = true := by
  constructor
  · simp [ProtonBoronFusionCrossSection]
  · intro E hE
    unfold ProtonBoronFusionCrossSection
    rw [if_neg hE]
    have hmev : E * ProtonBoron.joule_to_mev ≠ 0 := by
      refine mul_ne_zero hE ?_
      norm_num [ProtonBoron.joule_to_mev, PhysConst.q_e]
    obtain ⟨a, ha⟩ := Option.isSome_iff_exists.mp
      (astrophysicalFactor_isSome (E * ProtonBoron.joule_to_kev))
    simp only [ha, cdiv_of_ne _ _ hmev]
    simp

theorem protonBoron_cross_section_zero_guard_witness :
    (ProtonBoronFusionCrossSection 1).isSome = true :=
  protonBoron_cross_section_zero_guard.2 1 (by norm_num)

end
